import Mathlib

/-!
Verification of the voltarium API client (CCEE energy-market backend).

This file gives a shallow embedding of the client's request-execution
engine — OAuth2 token lifecycle, error-taxonomy mapping, retry policy,
paginated-list iteration — together with the document-number validator of
the migration request models and the contract-file base64 decoding, and
proves the specified properties about them.

The models/migration.py validators are translated directly from the
source.  The client engine (voltarium/client.py, voltarium/exceptions.py,
voltarium/models/token.py, voltarium/models/contracts.py) is not part of
the provided sources, so those parts are modelled from the specification,
as marked in each doc comment.
-/

/-! ## Error taxonomy -/

/-- Modelled from the spec: voltarium/exceptions.py is not in the sources.
The failure kinds of the error taxonomy: Authentication, Validation,
NotFound, RateLimit, Server, Network/Unknown. -/
inductive ErrorKind where
  | authentication
  | validation
  | notFound
  | rateLimit
  | server
  | network
  deriving DecidableEq, Repr

/-- Modelled from the spec: a typed failure carrying kind, HTTP status,
backend error code and message (`ApiError` in the spec data model;
`VoltariumError` and subclasses in the package exports). -/
structure ApiError where
  kind : ErrorKind
  httpStatus : Option Nat
  backendCode : Option String
  message : String
  deriving DecidableEq, Repr

/-- Backend validation error codes recognized by the client;
the two codes exercised by the measurements tests. -/
def recognizedValidationCodes : List String :=
  ["ERR_PERIODO_INVALIDO_MEDICOES", "ERR_SISTEMA_MIGRACAO_IMPLATADO_MEDICOES"]

/-- Whether an optional backend code is a recognized validation code. -/
def isRecognizedValidationCode : Option String → Bool
  | some c => recognizedValidationCodes.contains c
  | none => false

/-- Modelled from the spec: the RequestExecutor's error mapping from an
HTTP status and optional backend error code to a typed failure kind.
Returns `none` for statuses the fixed table does not classify. -/
def classifyStatus (status : Nat) (code : Option String) : Option ErrorKind :=
  if status = 401 ∨ status = 403 then some .authentication
  else if status = 422 ∨ isRecognizedValidationCode code then some .validation
  else if status = 404 then some .notFound
  else if status = 429 then some .rateLimit
  else if 500 ≤ status ∧ status ≤ 599 then some .server
  else none

/-- The raw result of one HTTP attempt: a successful payload, an HTTP
error response (status, backend code, message), or a network-level
failure (timeout, connection reset). -/
inductive AttemptOutcome where
  | success (payload : String)
  | httpError (status : Nat) (code : Option String) (msg : String)
  | netError (msg : String)
  deriving DecidableEq, Repr

/-- Modelled from the spec: build the typed failure for an HTTP error
response, falling back to the Network/Unknown kind for unclassified
statuses, and preserving the backend's error code string. -/
def mkApiError (status : Nat) (code : Option String) (msg : String) : ApiError :=
  { kind := (classifyStatus status code).getD .network
    httpStatus := some status
    backendCode := code
    message := msg }

/-- Modelled from the spec: resolve one raw HTTP attempt into either the
parsed payload or a typed failure.  Network-level failures map to the
Network/Unknown kind with no HTTP status. -/
def resolveAttempt : AttemptOutcome → Except ApiError String
  | .success p => .ok p
  | .httpError status code msg => .error (mkApiError status code msg)
  | .netError msg => .error { kind := .network, httpStatus := none, backendCode := none, message := msg }

/-- C4: every HTTP response maps to exactly one typed failure kind by the
fixed table: 401/403 → Authentication; 422 or a recognized backend
validation code → Validation with the backend's code string preserved
(in particular ERR_PERIODO_INVALIDO_MEDICOES is carried verbatim, hence
as an exact substring); 404 → NotFound; 429 → RateLimit; 5xx → Server;
network-level failures → Network/Unknown. -/
theorem C4_error_taxonomy_mapping (status : Nat) (code : Option String) (msg : String) :
    (resolveAttempt (.httpError status code msg) = .error (mkApiError status code msg)) ∧
    (status = 401 ∨ status = 403 → (mkApiError status code msg).kind = .authentication) ∧
    (status = 422 → (mkApiError status code msg).kind = .validation) ∧
    (¬(status = 401 ∨ status = 403) → isRecognizedValidationCode code = true →
      (mkApiError status code msg).kind = .validation ∧
      (mkApiError status code msg).backendCode = code) ∧
    (status = 404 → isRecognizedValidationCode code = false →
      (mkApiError status code msg).kind = .notFound) ∧
    (status = 429 → isRecognizedValidationCode code = false →
      (mkApiError status code msg).kind = .rateLimit) ∧
    (500 ≤ status → status ≤ 599 → isRecognizedValidationCode code = false →
      (mkApiError status code msg).kind = .server) ∧
    (resolveAttempt (.netError msg) =
      .error { kind := .network, httpStatus := none, backendCode := none, message := msg }) := by
  refine ⟨rfl, ?_, ?_, ?_, ?_, ?_, ?_, rfl⟩
  · rintro (rfl | rfl) <;> simp [mkApiError, classifyStatus]
  · rintro rfl; simp [mkApiError, classifyStatus]
  · intro h1 h2
    simp only [mkApiError, classifyStatus]
    rw [if_neg h1, if_pos (Or.inr h2)]
    exact ⟨rfl, by simp⟩
  · rintro rfl h
    simp [mkApiError, classifyStatus, h]
  · rintro rfl h
    simp [mkApiError, classifyStatus, h]
  · intro h1 h2 h3
    simp only [mkApiError, classifyStatus]
    rw [if_neg (by omega), if_neg (by rintro (h | h); omega; rw [h3] at h; exact absurd h (by simp)),
      if_neg (by omega), if_neg (by omega), if_pos ⟨h1, h2⟩]
    rfl

/-- Concrete instantiations of the error-mapping table, including the
invalid-period backend code from the measurements tests. -/
theorem C4_error_taxonomy_mapping_witness :
    (mkApiError 401 none "m").kind = .authentication ∧
    (mkApiError 422 none "m").kind = .validation ∧
    ((mkApiError 400 (some "ERR_PERIODO_INVALIDO_MEDICOES") "m").kind = .validation ∧
      (mkApiError 400 (some "ERR_PERIODO_INVALIDO_MEDICOES") "m").backendCode =
        some "ERR_PERIODO_INVALIDO_MEDICOES") ∧
    (mkApiError 404 none "m").kind = .notFound ∧
    (mkApiError 429 none "m").kind = .rateLimit ∧
    (mkApiError 503 none "m").kind = .server ∧
    resolveAttempt (.netError "m") =
      .error { kind := .network, httpStatus := none, backendCode := none, message := "m" } :=
  ⟨(C4_error_taxonomy_mapping 401 none "m").2.1 (Or.inl rfl),
   (C4_error_taxonomy_mapping 422 none "m").2.2.1 rfl,
   (C4_error_taxonomy_mapping 400 (some "ERR_PERIODO_INVALIDO_MEDICOES") "m").2.2.2.1
     (by decide) (by decide),
   (C4_error_taxonomy_mapping 404 none "m").2.2.2.2.1 rfl (by decide),
   (C4_error_taxonomy_mapping 429 none "m").2.2.2.2.2.1 rfl (by decide),
   (C4_error_taxonomy_mapping 503 none "m").2.2.2.2.2.2.1 (by decide) (by decide) (by decide),
   (C4_error_taxonomy_mapping 503 none "m").2.2.2.2.2.2.2⟩

/-! ## Document-number validation (voltarium/models/migration.py) -/

/-- The Unicode code-point ranges on which Python's built-in
`str.isdigit` is true for a single character — the characters of
Numeric_Type Decimal or Digit — taken exhaustively from CPython 3.11's
Unicode 14.0 data: 81 ranges, 788 code points.  They comprise the ASCII
digits, every other decimal-digit block (Arabic-Indic, Devanagari,
fullwidth, ...), and the Digit-type characters such as superscripts and
subscripts. -/
def pyDigitRanges : List (Nat × Nat) := [
  (48, 57), (178, 179), (185, 185), (1632, 1641), (1776, 1785), (1984, 1993),
  (2406, 2415), (2534, 2543), (2662, 2671), (2790, 2799), (2918, 2927), (3046, 3055),
  (3174, 3183), (3302, 3311), (3430, 3439), (3558, 3567), (3664, 3673), (3792, 3801),
  (3872, 3881), (4160, 4169), (4240, 4249), (4969, 4977), (6112, 6121), (6160, 6169),
  (6470, 6479), (6608, 6618), (6784, 6793), (6800, 6809), (6992, 7001), (7088, 7097),
  (7232, 7241), (7248, 7257), (8304, 8304), (8308, 8313), (8320, 8329), (9312, 9320),
  (9332, 9340), (9352, 9360), (9450, 9450), (9461, 9469), (9471, 9471), (10102, 10110),
  (10112, 10120), (10122, 10130), (42528, 42537), (43216, 43225), (43264, 43273), (43472, 43481),
  (43504, 43513), (43600, 43609), (44016, 44025), (65296, 65305), (66720, 66729), (68160, 68163),
  (68912, 68921), (69216, 69224), (69714, 69722), (69734, 69743), (69872, 69881), (69942, 69951),
  (70096, 70105), (70384, 70393), (70736, 70745), (70864, 70873), (71248, 71257), (71360, 71369),
  (71472, 71481), (71904, 71913), (72016, 72025), (72784, 72793), (73040, 73049), (73120, 73129),
  (92768, 92777), (92864, 92873), (93008, 93017), (120782, 120831), (123200, 123209), (123632, 123641),
  (125264, 125273), (127232, 127242), (130032, 130041)
]

/-- Python's `str.isdigit` on a single character: true exactly on the
code points of `pyDigitRanges`. -/
def pyCharIsDigit (c : Char) : Bool :=
  pyDigitRanges.any fun r => r.1 ≤ c.toNat && c.toNat ≤ r.2

/-- Python's `str.isdigit` on a whole string: nonempty, and every
character a digit in Python's Unicode sense. -/
def pyStrIsDigit (s : String) : Bool := !s.data.isEmpty && s.data.all pyCharIsDigit

namespace CreateMigrationRequest

/-- `CreateMigrationRequest.validate_document_number` from
voltarium/models/migration.py: remove all non-numeric characters (per
Python's `str.isdigit`), then raise unless the result `isdigit`. -/
def validate_document_number (v : String) : Except String String :=
  let v' : String := ⟨v.data.filter pyCharIsDigit⟩
  if !pyStrIsDigit v' then .error "document_number must be a number"
  else .ok v'

end CreateMigrationRequest

namespace UpdateMigrationRequest

/-- `UpdateMigrationRequest.validate_document_number` from
voltarium/models/migration.py (its body is identical to the one on
`CreateMigrationRequest`). -/
def validate_document_number (v : String) : Except String String :=
  let v' : String := ⟨v.data.filter pyCharIsDigit⟩
  if !pyStrIsDigit v' then .error "document_number must be a number"
  else .ok v'

end UpdateMigrationRequest

/-- Filtering a character list by the Python digit predicate leaves
only such characters. -/
theorem filter_pyCharIsDigit_all (l : List Char) :
    (l.filter pyCharIsDigit).all pyCharIsDigit = true := by
  simp only [List.all_eq_true]
  intro a ha
  exact (List.mem_filter.mp ha).2

/-- The validator, rewritten by whether the digit subsequence is empty. -/
theorem validate_document_number_eq (v : String) :
    CreateMigrationRequest.validate_document_number v =
      if (v.data.filter pyCharIsDigit).isEmpty then
        .error "document_number must be a number"
      else .ok ⟨v.data.filter pyCharIsDigit⟩ := by
  unfold CreateMigrationRequest.validate_document_number
  simp [pyStrIsDigit, filter_pyCharIsDigit_all]

/-- C9 as stated is false on the code: Python's `str.isdigit` also
accepts Digit-type characters that are no decimal digits, so on the
input "²" (U+00B2, superscript two) — a string containing no
decimal-digit character at all — the validator does not reject but
accepts it and returns "²", a string that does not consist of decimal
digits. -/
theorem C9_document_number_counterexample :
    CreateMigrationRequest.validate_document_number "²" = .ok "²" ∧
    ("²" : String).data.any Char.isDigit = false ∧
    ("²" : String).data.all Char.isDigit = false := by
  refine ⟨rfl, by decide, by decide⟩

/-- C9 (amended): with "digit" meaning a character accepted by Python's
Unicode `str.isdigit` (Numeric_Type Decimal or Digit — so also
Arabic-Indic digits, superscripts, ...), `document_number` validation on
both request models returns exactly the subsequence of digit characters
of the input whenever the input contains at least one of them, rejects
inputs containing none, and accepted outputs consist only of digit
characters with the normalization idempotent. -/
theorem C9_document_number_normalization (s : String) :
    (s.data.any pyCharIsDigit = true →
      CreateMigrationRequest.validate_document_number s = .ok ⟨s.data.filter pyCharIsDigit⟩) ∧
    (s.data.any pyCharIsDigit = false →
      CreateMigrationRequest.validate_document_number s =
        .error "document_number must be a number") ∧
    (∀ t, CreateMigrationRequest.validate_document_number s = .ok t →
      t.data.all pyCharIsDigit = true ∧
      CreateMigrationRequest.validate_document_number t = .ok t) ∧
    (UpdateMigrationRequest.validate_document_number s =
      CreateMigrationRequest.validate_document_number s) := by
  refine ⟨?_, ?_, ?_, rfl⟩
  · intro h
    rw [validate_document_number_eq, if_neg]
    simp only [List.isEmpty_iff, List.filter_eq_nil_iff, not_forall]
    simp only [List.any_eq_true] at h
    obtain ⟨c, hc, hd⟩ := h
    exact ⟨c, hc, by simp [hd]⟩
  · intro h
    rw [validate_document_number_eq, if_pos]
    rw [List.any_eq_false] at h
    simp only [List.isEmpty_iff, List.filter_eq_nil_iff]
    intro a ha
    exact h a ha
  · intro t ht
    rw [validate_document_number_eq] at ht
    by_cases he : (s.data.filter pyCharIsDigit).isEmpty
    · rw [if_pos he] at ht; exact absurd ht (by simp)
    · rw [if_neg he] at ht
      obtain rfl : t = ⟨s.data.filter pyCharIsDigit⟩ := by
        injection ht with h; exact h.symm
      refine ⟨filter_pyCharIsDigit_all _, ?_⟩
      rw [validate_document_number_eq]
      have hdata : (⟨s.data.filter pyCharIsDigit⟩ : String).data =
          s.data.filter pyCharIsDigit := rfl
      have hself : (s.data.filter pyCharIsDigit).filter pyCharIsDigit =
          s.data.filter pyCharIsDigit := by
        rw [List.filter_filter]
        simp [Bool.and_self]
      rw [hdata, hself, if_neg he]

/-- Concrete runs of the document-number validator: ASCII punctuation is
stripped, an Arabic-Indic digit is accepted (Python's `isdigit` is
Unicode-aware), a digit-free input is rejected, and an accepted output
is all digits. -/
theorem C9_document_number_normalization_witness :
    CreateMigrationRequest.validate_document_number "12.345-6x" = .ok "123456" ∧
    CreateMigrationRequest.validate_document_number "٣" = .ok "٣" ∧
    CreateMigrationRequest.validate_document_number "abc" =
      .error "document_number must be a number" ∧
    ("123456" : String).data.all pyCharIsDigit = true := by
  have h1 := (C9_document_number_normalization "12.345-6x").1 (by decide)
  have h3 := (C9_document_number_normalization "٣").1 (by decide)
  have h2 := (C9_document_number_normalization "abc").2.1 (by decide)
  exact ⟨h1, h3, h2, ((C9_document_number_normalization "12.345-6x").2.2.1 _ h1).1⟩

/-! ## OAuth2 token lifecycle (modelled from the spec) -/

/-- Modelled from the spec: voltarium/models/token.py is not in the
sources.  A bearer token together with its absolute expiry timestamp
(seconds since the epoch). -/
structure Token where
  access_token : String
  expires_at : Nat
  deriving DecidableEq, Repr

/-- Modelled from the spec: the safety-margin validity invariant — a token
is valid at time `now` only while `now` is strictly before `expires_at`
minus the safety margin (phrased additively to stay in `Nat`). -/
def tokenValid (margin now : Nat) (t : Token) : Bool :=
  now + margin < t.expires_at

/-- The auth endpoint's reply to a client-credentials token exchange:
either `access_token` plus `expires_in`, or an HTTP error status. -/
inductive AuthReply where
  | granted (access_token : String) (expires_in : Nat)
  | denied (status : Nat) (code : Option String) (msg : String)
  deriving DecidableEq, Repr

/-- Modelled from the spec: one client-credentials token exchange at time
`now`: a granted reply yields a fresh token with
`expires_at = now + expires_in`; an error reply is mapped through the
error taxonomy. -/
def tokenExchange (now : Nat) : AuthReply → Except ApiError Token
  | .granted s ei => .ok ⟨s, now + ei⟩
  | .denied status code msg => .error (mkApiError status code msg)

/-- Modelled from the spec: the sequential core of
`VoltariumClient._get_access_token`: reuse a cached, non-expired token
with no exchange; otherwise perform exactly one exchange, storing the
fresh token on success and leaving the store unchanged on failure.
Returns the result, the token store afterwards, and the number of
exchange calls made. -/
def getAccessToken (margin now : Nat) (reply : AuthReply) (store : Option Token) :
    Except ApiError String × Option Token × Nat :=
  match store with
  | some t =>
    if tokenValid margin now t then (.ok t.access_token, some t, 0)
    else
      match tokenExchange now reply with
      | .ok t' => (.ok t'.access_token, some t', 1)
      | .error e => (.error e, some t, 1)
  | none =>
    match tokenExchange now reply with
    | .ok t' => (.ok t'.access_token, some t', 1)
    | .error e => (.error e, none, 1)

/-- C3: a cached token that is not expired per the safety-margin
invariant is returned with no exchange call and the store unchanged, so
two successive calls return the same token value; a cached token whose
expiry has passed triggers exactly one exchange. -/
theorem C3_token_cache_reuse (margin now : Nat) (reply : AuthReply) (t : Token) :
    (tokenValid margin now t = true →
      getAccessToken margin now reply (some t) = (.ok t.access_token, some t, 0) ∧
      getAccessToken margin now reply (getAccessToken margin now reply (some t)).2.1 =
        getAccessToken margin now reply (some t)) ∧
    (tokenValid margin now t = false →
      (getAccessToken margin now reply (some t)).2.2 = 1) := by
  constructor
  · intro h
    have h1 : getAccessToken margin now reply (some t) = (.ok t.access_token, some t, 0) := by
      simp [getAccessToken, h]
    exact ⟨h1, by rw [h1]; exact h1⟩
  · intro h
    simp only [getAccessToken, h, if_false]
    cases tokenExchange now reply <;> rfl

/-- Concrete run of the token cache: a valid cached token is reused with
zero exchanges; an expired one costs exactly one exchange. -/
theorem C3_token_cache_reuse_witness :
    (getAccessToken 30 100 (.granted "fresh" 3600) (some ⟨"cached", 200⟩) =
      (.ok "cached", some ⟨"cached", 200⟩, 0)) ∧
    ((getAccessToken 30 100 (.granted "fresh" 3600) (some ⟨"cached", 120⟩)).2.2 = 1) :=
  ⟨((C3_token_cache_reuse 30 100 (.granted "fresh" 3600) ⟨"cached", 200⟩).1 (by decide)).1,
   (C3_token_cache_reuse 30 100 (.granted "fresh" 3600) ⟨"cached", 120⟩).2 (by decide)⟩

/-- C7: a successful exchange stores a token with
`expires_at = now + expires_in` (strictly in the future when
`expires_in` is positive), validity thereafter means the current time is
strictly before `expires_at` minus the safety margin, and the store is
only ever left unchanged or replaced wholesale by the fresh token. -/
theorem C7_token_expiry_invariant (margin now ei : Nat) (s : String) (store : Option Token) :
    (∀ t', tokenExchange now (.granted s ei) = .ok t' →
      t'.expires_at = now + ei ∧
      (0 < ei → now < t'.expires_at) ∧
      (∀ now', tokenValid margin now' t' = true ↔ now' + margin < now + ei)) ∧
    (∀ reply, (getAccessToken margin now reply store).2.1 = store ∨
      ∃ t', tokenExchange now reply = .ok t' ∧
        (getAccessToken margin now reply store).2.1 = some t') := by
  constructor
  · intro t' ht
    have : t' = ⟨s, now + ei⟩ := by
      simpa [tokenExchange] using ht.symm
    subst this
    refine ⟨rfl, by intro h; simpa using h, ?_⟩
    intro now'
    simp [tokenValid]
  · intro reply
    match store with
    | some t =>
      by_cases h : tokenValid margin now t
      · left; simp [getAccessToken, h]
      · cases hx : tokenExchange now reply with
        | ok t' => right; exact ⟨t', rfl, by simp [getAccessToken, h, hx]⟩
        | error e => left; simp [getAccessToken, h, hx]
    | none =>
      cases hx : tokenExchange now reply with
      | ok t' => right; exact ⟨t', rfl, by simp [getAccessToken, hx]⟩
      | error e => left; simp [getAccessToken, hx]

/-- Concrete run of a refresh: the fresh token expires exactly
`expires_in` after `now`, strictly in the future, and the store is
replaced wholesale. -/
theorem C7_token_expiry_invariant_witness :
    ((⟨"fresh", 100 + 3600⟩ : Token).expires_at = 100 + 3600 ∧
      100 < (⟨"fresh", 100 + 3600⟩ : Token).expires_at) ∧
    (∃ t', tokenExchange 100 (.granted "fresh" 3600) = .ok t' ∧
      (getAccessToken 30 100 (.granted "fresh" 3600) none).2.1 = some t') := by
  have h := C7_token_expiry_invariant 30 100 3600 "fresh" none
  have h1 := h.1 ⟨"fresh", 100 + 3600⟩ rfl
  refine ⟨⟨h1.1, h1.2.1 (by decide)⟩, ?_⟩
  rcases h.2 (.granted "fresh" 3600) with hc | hc
  · exact ⟨⟨"fresh", 100 + 3600⟩, rfl, by simp [getAccessToken, tokenExchange] at hc ⊢⟩
  · exact hc

/-! ## RequestExecutor retry policy (modelled from the spec) -/

/-- Modelled from the spec: the failure kinds the RequestExecutor
retries — Server, RateLimit and raw network failures.  Authentication,
Validation and NotFound are never retried. -/
def retryableKind : ErrorKind → Bool
  | .server => true
  | .rateLimit => true
  | .network => true
  | .authentication => false
  | .validation => false
  | .notFound => false

/-- Modelled from the spec: the backoff delay slept before the retry that
follows attempt `i`: exponential in the attempt index plus jitter. -/
def backoffDelay (base : Nat) (jitter : Nat → Nat) (i : Nat) : Nat :=
  base * 2 ^ i + jitter i

/-- Modelled from the spec: the RequestExecutor retry loop.  `attempts i`
is the raw outcome of the i-th HTTP attempt and `left` the number of
retries still allowed beyond the current attempt.  Returns the final
result, the number of attempts made, and the backoff delays slept. -/
def retryLoop (attempts : Nat → AttemptOutcome) (base : Nat) (jitter : Nat → Nat) :
    Nat → Nat → Except ApiError String × Nat × List Nat
  | i, 0 =>
    match resolveAttempt (attempts i) with
    | .ok p => (.ok p, 1, [])
    | .error e => (.error e, 1, [])
  | i, l + 1 =>
    match resolveAttempt (attempts i) with
    | .ok p => (.ok p, 1, [])
    | .error e =>
      if retryableKind e.kind then
        let r := retryLoop attempts base jitter (i + 1) l
        (r.1, r.2.1 + 1, backoffDelay base jitter i :: r.2.2)
      else (.error e, 1, [])

/-- Modelled from the spec: execute one logical HTTP call with a retry
budget of `retries` additional attempts after the first. -/
def executeWithRetry (attempts : Nat → AttemptOutcome) (base : Nat) (jitter : Nat → Nat)
    (retries : Nat) : Except ApiError String × Nat × List Nat :=
  retryLoop attempts base jitter 0 retries

/-- A successful attempt ends the retry loop at once. -/
theorem retryLoop_ok (attempts : Nat → AttemptOutcome) (base : Nat) (jitter : Nat → Nat)
    (i left : Nat) (p : String) (h : resolveAttempt (attempts i) = .ok p) :
    retryLoop attempts base jitter i left = (.ok p, 1, []) := by
  cases left <;> (unfold retryLoop; rw [h])

/-- A non-retryable failure, or an exhausted budget, ends the retry loop
with that failure after the current attempt. -/
theorem retryLoop_stop (attempts : Nat → AttemptOutcome) (base : Nat) (jitter : Nat → Nat)
    (i left : Nat) (e : ApiError) (h : resolveAttempt (attempts i) = .error e)
    (hs : left = 0 ∨ retryableKind e.kind = false) :
    retryLoop attempts base jitter i left = (.error e, 1, []) := by
  rcases hs with rfl | hs
  · unfold retryLoop; rw [h]
  · cases left with
    | zero => unfold retryLoop; rw [h]
    | succ l => unfold retryLoop; rw [h]; simp [hs]

/-- A retryable failure with budget remaining recurses on the next
attempt, sleeping one backoff delay. -/
theorem retryLoop_retry (attempts : Nat → AttemptOutcome) (base : Nat) (jitter : Nat → Nat)
    (i l : Nat) (e : ApiError) (h : resolveAttempt (attempts i) = .error e)
    (hr : retryableKind e.kind = true) :
    retryLoop attempts base jitter i (l + 1) =
      ((retryLoop attempts base jitter (i + 1) l).1,
        (retryLoop attempts base jitter (i + 1) l).2.1 + 1,
        backoffDelay base jitter i :: (retryLoop attempts base jitter (i + 1) l).2.2) := by
  conv_lhs => unfold retryLoop
  rw [h]
  simp [hr]

/-- The retry loop makes at most `left + 1` attempts. -/
theorem retryLoop_attempts_le (attempts : Nat → AttemptOutcome) (base : Nat)
    (jitter : Nat → Nat) : ∀ left i, (retryLoop attempts base jitter i left).2.1 ≤ left + 1 := by
  intro left
  induction left with
  | zero =>
    intro i
    cases h : resolveAttempt (attempts i) with
    | ok p => rw [retryLoop_ok _ _ _ _ _ _ h]
    | error e => rw [retryLoop_stop _ _ _ _ _ _ h (Or.inl rfl)]
  | succ l ih =>
    intro i
    cases h : resolveAttempt (attempts i) with
    | ok p => rw [retryLoop_ok _ _ _ _ _ _ h]; simp
    | error e =>
      cases hr : retryableKind e.kind with
      | false => rw [retryLoop_stop _ _ _ _ _ _ h (Or.inr hr)]; simp
      | true =>
        rw [retryLoop_retry _ _ _ _ _ _ h hr]
        have := ih (i + 1)
        simpa using Nat.add_le_add_right this 1

/-- If every attempt within the budget fails with a retryable failure,
the loop spends the whole budget, surfaces the last failure unchanged,
and sleeps the exponential-plus-jitter delay before each retry. -/
theorem retryLoop_all_fail (attempts : Nat → AttemptOutcome) (base : Nat) (jitter : Nat → Nat)
    (es : Nat → ApiError) :
    ∀ left i,
      (∀ j, j ≤ left → resolveAttempt (attempts (i + j)) = .error (es (i + j)) ∧
        retryableKind (es (i + j)).kind = true) →
      retryLoop attempts base jitter i left =
        (.error (es (i + left)), left + 1,
          (List.range left).map fun j => backoffDelay base jitter (i + j)) := by
  intro left
  induction left with
  | zero =>
    intro i h
    have h0 := h 0 (Nat.le_refl 0)
    rw [Nat.add_zero] at h0
    rw [retryLoop_stop _ _ _ _ _ _ h0.1 (Or.inl rfl)]
    simp
  | succ l ih =>
    intro i h
    have h0 := h 0 (Nat.zero_le _)
    rw [Nat.add_zero] at h0
    rw [retryLoop_retry _ _ _ _ _ _ h0.1 h0.2]
    have hrec := ih (i + 1) (by
      intro j hj
      have := h (j + 1) (by omega)
      constructor
      · have hx : i + (j + 1) = i + 1 + j := by omega
        rw [hx] at this
        exact this.1
      · have hx : i + (j + 1) = i + 1 + j := by omega
        rw [hx] at this
        exact this.2)
    rw [hrec]
    refine congrArg₂ _ (by rw [show i + 1 + l = i + (l + 1) by omega]) ?_
    refine congrArg₂ _ rfl ?_
    rw [List.range_succ_eq_map, List.map_cons, List.map_map]
    refine congrArg₂ _ (by rw [Nat.add_zero]) ?_
    apply List.map_congr_left
    intro j hj
    simp only [Function.comp]
    congr 1
    omega

/-- C5: only Server-, RateLimit- and Network/Unknown-kind failures are
retried; a non-retryable failure on the first attempt is surfaced after
exactly one attempt; at most `retries + 1` attempts are ever made; when
every attempt in the budget fails retryably, the budget is spent in full,
the last observed failure is surfaced unchanged, and an
exponential-plus-jitter delay is slept before each retry; and a
Server-kind failure on the first attempt followed by success within the
budget yields exactly the successful result. -/
theorem C5_retry_policy (attempts : Nat → AttemptOutcome) (base : Nat) (jitter : Nat → Nat)
    (retries : Nat) (es : Nat → ApiError) (e : ApiError) (p : String) :
    (retryableKind .server = true ∧ retryableKind .rateLimit = true ∧
      retryableKind .network = true ∧ retryableKind .authentication = false ∧
      retryableKind .validation = false ∧ retryableKind .notFound = false) ∧
    (resolveAttempt (attempts 0) = .error e → retryableKind e.kind = false →
      executeWithRetry attempts base jitter retries = (.error e, 1, [])) ∧
    ((executeWithRetry attempts base jitter retries).2.1 ≤ retries + 1) ∧
    ((∀ j, j ≤ retries → resolveAttempt (attempts j) = .error (es j) ∧
        retryableKind (es j).kind = true) →
      executeWithRetry attempts base jitter retries =
        (.error (es retries), retries + 1,
          (List.range retries).map (backoffDelay base jitter))) ∧
    (resolveAttempt (attempts 0) = .error e → e.kind = .server →
      resolveAttempt (attempts 1) = .ok p → 1 ≤ retries →
      (executeWithRetry attempts base jitter retries).1 = .ok p) := by
  refine ⟨⟨rfl, rfl, rfl, rfl, rfl, rfl⟩, ?_, ?_, ?_, ?_⟩
  · intro h1 h2
    exact retryLoop_stop attempts base jitter 0 retries e h1 (Or.inr h2)
  · exact retryLoop_attempts_le attempts base jitter retries 0
  · intro h
    have hall := retryLoop_all_fail attempts base jitter es retries 0
      (by intro j hj; simpa using h j hj)
    simpa using hall
  · intro h1 h2 h3 hr
    obtain ⟨r, rfl⟩ : ∃ r, retries = r + 1 := ⟨retries - 1, by omega⟩
    unfold executeWithRetry
    rw [retryLoop_retry attempts base jitter 0 r e h1 (by rw [h2]; rfl)]
    simp only
    rw [retryLoop_ok attempts base jitter 1 r p h3]

/-- Concrete retry runs: a NotFound failure is never retried; three
straight Server failures exhaust a budget of two retries with delays 1
and 2 and surface the last failure; a Server failure followed by success
yields the success. -/
theorem C5_retry_policy_witness :
    (executeWithRetry (fun _ => .httpError 404 none "nf") 1 (fun _ => 0) 3 =
      (.error (mkApiError 404 none "nf"), 1, [])) ∧
    (executeWithRetry (fun _ => .httpError 500 none "boom") 1 (fun _ => 0) 2 =
      (.error (mkApiError 500 none "boom"), 3, [1, 2])) ∧
    ((executeWithRetry (fun i => if i = 0 then .httpError 500 none "boom" else .success "fine")
        1 (fun _ => 0) 2).1 = .ok "fine") := by
  refine ⟨?_, ?_, ?_⟩
  · exact (C5_retry_policy (fun _ => .httpError 404 none "nf") 1 (fun _ => 0) 3
      (fun _ => mkApiError 404 none "nf") (mkApiError 404 none "nf") "x").2.1 rfl (by decide)
  · have h := (C5_retry_policy (fun _ => .httpError 500 none "boom") 1 (fun _ => 0) 2
      (fun _ => mkApiError 500 none "boom") (mkApiError 500 none "boom") "x").2.2.2.1
      (by intro j hj; exact ⟨rfl, by decide⟩)
    rw [h]
    norm_num [backoffDelay, List.range_succ]
  · exact (C5_retry_policy (fun i => if i = 0 then .httpError 500 none "boom" else .success "fine")
      1 (fun _ => 0) 2 (fun _ => mkApiError 500 none "boom") (mkApiError 500 none "boom")
      "fine").2.2.2.2 rfl (by decide) rfl (by omega)

/-! ## PageIterator (modelled from the spec) -/

/-- Modelled from the spec: the pagination state owned by one
PageIterator instance. -/
structure PaginationState where
  current_page_index : Nat
  exhausted : Bool
  deriving DecidableEq, Repr

/-- Ceiling division: the number of pages of size `p` needed to hold `n`
items, `⌈n / p⌉`. -/
def ceilPages (n p : Nat) : Nat := (n + p - 1) / p

/-- Modelled from the spec: a pure list endpoint over a backend holding
`items`, serving pages of size `pageSize` by page index together with the
has-more signal from the pagination metadata. -/
def fetchPage {α : Type} (items : List α) (pageSize idx : Nat) : List α × Bool :=
  ((items.drop (idx * pageSize)).take pageSize,
    decide ((idx + 1) * pageSize < items.length))

/-- Modelled from the spec: the PageIterator protocol.  `backend idx` is
the (fallible) fetch of page `idx`.  On each pull: if exhausted, stop;
otherwise fetch the current page, yield its items, mark `exhausted` when
the page is short or the backend signals no further pages, else advance
the index.  A failed fetch propagates without touching the state.
Returns the yielded pages, the final PaginationState, and the propagated
failure, if any.  `fuel` bounds the recursion and is chosen large enough
by callers. -/
def runIterator {α : Type} (backend : Nat → Except ApiError (List α × Bool)) (pageSize : Nat) :
    PaginationState → Nat → List (List α) × PaginationState × Option ApiError
  | st, 0 => ([], st, none)
  | st, fuel + 1 =>
    if st.exhausted then ([], st, none)
    else
      match backend st.current_page_index with
      | .error e => ([], st, some e)
      | .ok (chunk, hasMore) =>
        let st' : PaginationState :=
          ⟨st.current_page_index + 1, decide (chunk.length < pageSize) || !hasMore⟩
        let r := runIterator backend pageSize st' fuel
        (chunk :: r.1, r.2.1, r.2.2)

/-- Modelled from the spec: drain a fresh iterator over a pure backend
holding `items` with page size `pageSize`, as a list operation such as
`list_migrations` does. -/
def listAll {α : Type} (items : List α) (pageSize : Nat) :
    List (List α) × PaginationState × Option ApiError :=
  runIterator (fun idx => .ok (fetchPage items pageSize idx)) pageSize ⟨0, false⟩
    (items.length + 1)

/-- Draining the pure backend from page `p` with enough fuel yields the
remaining items in order, page by page, in `max 1 ⌈remaining / P⌉`
fetches, ending exhausted with the index advanced by that count. -/
theorem runIterator_pure {α : Type} (items : List α) (P : Nat) (hP : 0 < P) :
    ∀ fuel p, items.length - p * P + 1 ≤ fuel →
      ∃ pages,
        runIterator (fun idx => .ok (fetchPage items P idx)) P ⟨p, false⟩ fuel =
          (pages, ⟨p + max 1 (ceilPages (items.length - p * P) P), true⟩, none) ∧
        pages.flatten = items.drop (p * P) ∧
        pages.length = max 1 (ceilPages (items.length - p * P) P) := by
  intro fuel
  induction fuel with
  | zero => intro p h; omega
  | succ fuel ih =>
    intro p hfuel
    set N := items.length with hN
    set M := N - p * P with hM
    have hdroplen : (items.drop (p * P)).length = M := by
      simp [hM, hN]
    by_cases hshort : M ≤ P
    · -- the current page is the last one: short page or no-more signal
      have hchunk : (items.drop (p * P)).take P = items.drop (p * P) :=
        List.take_of_length_le (by omega)
      have hmore : decide ((p + 1) * P < items.length) = false := by
        simp only [decide_eq_false_iff_not, not_lt]
        have : (p + 1) * P = p * P + P := by ring
        omega
      have hceil : max 1 (ceilPages M P) = 1 := by
        have hdiv : (M + P - 1) / P = if M = 0 then 0 else 1 := by
          split
          · rename_i h0
            rw [h0]
            exact Nat.div_eq_of_lt (by omega)
          · exact Nat.div_eq_of_lt_le (by omega) (by omega)
        simp only [ceilPages, hdiv]
        split <;> simp
      have hfp : fetchPage items P p = (items.drop (p * P), false) := by
        unfold fetchPage
        rw [hchunk, hmore]
      have hst : runIterator (fun idx => Except.ok (fetchPage items P idx)) P
          ⟨p + 1, true⟩ fuel = ([], ⟨p + 1, true⟩, none) := by
        cases fuel <;> simp [runIterator]
      refine ⟨[items.drop (p * P)], ?_, by simp, by simp [hceil]⟩
      show runIterator _ P ⟨p, false⟩ (fuel + 1) = _
      unfold runIterator
      simp [hfp, hst, hceil]
    · -- a full page with more to come
      push_neg at hshort
      have hchunklen : ((items.drop (p * P)).take P).length = P := by
        simp [hdroplen]
        omega
      have hmore : decide ((p + 1) * P < items.length) = true := by
        simp only [decide_eq_true_eq]
        have : (p + 1) * P = p * P + P := by ring
        omega
      have hnotshort : decide (((items.drop (p * P)).take P).length < P) = false := by
        simp [hchunklen]
      have hMrec : N - (p + 1) * P = M - P := by
        have : (p + 1) * P = p * P + P := by ring
        omega
      obtain ⟨pages, hrun, hjoin, hlen⟩ := ih (p + 1) (by omega)
      have hceil : max 1 (ceilPages M P) = max 1 (ceilPages (M - P) P) + 1 := by
        have h1 : M + P - 1 = (M - 1) + P := by omega
        have h2 : (M - P) + P - 1 = M - 1 := by omega
        have h3 : ceilPages M P = (M - 1) / P + 1 := by
          rw [ceilPages, h1, Nat.add_div_right _ hP]
        have h4 : ceilPages (M - P) P = (M - 1) / P := by
          rw [ceilPages, h2]
        have h5 : 1 ≤ ceilPages (M - P) P := by
          rw [h4]
          have hle : P ≤ M - 1 := by omega
          have := (Nat.one_le_div_iff hP).mpr hle
          omega
        omega
      have hfp : fetchPage items P p = ((items.drop (p * P)).take P, true) := by
        unfold fetchPage
        rw [hmore]
      refine ⟨(items.drop (p * P)).take P :: pages, ?_, ?_, ?_⟩
      · show runIterator _ P ⟨p, false⟩ (fuel + 1) = _
        have hidx : p + max 1 (ceilPages M P) =
            p + 1 + max 1 (ceilPages (M - P) P) := by omega
        have hlt : ¬ (items.length - p * P < P) := by omega
        unfold runIterator
        rw [hMrec] at hrun
        simp [hfp, hnotshort, hrun, hidx, hlt]
      · rw [List.flatten_cons, hjoin]
        have h2 : (p + 1) * P = P + p * P := by ring
        rw [h2]
        rw [show items.drop (P + p * P) = (items.drop (p * P)).drop P by
          rw [List.drop_drop, Nat.add_comm]]
        exact List.take_append_drop P (items.drop (p * P))
      · rw [List.length_cons, hlen, hMrec]
        omega

/-- C2 as stated is false at N = 0: the iterator must issue one fetch to
discover that the backend is empty (each successful fetch contributes
exactly one entry to the yielded page list), while ceil(0/P) = 0. -/
theorem C2_page_iterator_counterexample :
    (listAll ([] : List Nat) 2).1.length = 1 ∧ ceilPages 0 2 = 0 := by
  constructor
  · rfl
  · rfl

/-- C2 (amended): over a backend holding N items with page size P > 0 the
iterator yields all N items in backend order with no reordering or
deduplication, using exactly max 1 ⌈N/P⌉ fetch calls — ⌈N/P⌉ whenever
N ≥ 1, and a single fetch (not zero) for an empty backend — requesting no
page after a short page or a negative has-more signal; with P = 2 over 5
items it yields pages [[a,b],[c,d],[e]] in 3 fetches. -/
theorem C2_page_iterator (α : Type) (items : List α) (P : Nat) (hP : 0 < P) :
    (∃ pages, listAll items P = (pages, ⟨max 1 (ceilPages items.length P), true⟩, none) ∧
      pages.flatten = items ∧
      pages.length = max 1 (ceilPages items.length P)) ∧
    (∀ a b c d e : α,
      listAll [a, b, c, d, e] 2 = ([[a, b], [c, d], [e]], ⟨3, true⟩, none)) := by
  constructor
  · have h := runIterator_pure items P hP (items.length + 1) 0 (by omega)
    simpa using h
  · intro a b c d e
    rfl

/-- Concrete drain at page size 2 over 5 items: pages of sizes [2,2,1],
concatenation in order, 3 fetches. -/
theorem C2_page_iterator_witness :
    (∃ pages, listAll [10, 20, 30, 40, 50] 2 = (pages, ⟨3, true⟩, none) ∧
      pages.flatten = [10, 20, 30, 40, 50] ∧ pages.length = 3) ∧
    listAll [10, 20, 30, 40, 50] 2 = ([[10, 20], [30, 40], [50]], ⟨3, true⟩, none) := by
  have h := C2_page_iterator Nat [10, 20, 30, 40, 50] 2 (by omega)
  refine ⟨?_, h.2 10 20 30 40 50⟩
  have h1 := h.1
  norm_num [ceilPages] at h1
  exact h1

/-- When the first `k` fetches succeed with full pages and more promised,
and fetch `k` fails, the iterator yields exactly the first `k` pages in
order and surfaces the failure with the state still as it was before the
failed pull. -/
theorem runIterator_fail {α : Type} (f : Nat → Except ApiError (List α × Bool)) (P : Nat)
    (chunks : Nat → List α) (e : ApiError) :
    ∀ k i fuel, k < fuel →
      (∀ j, j < k → f (i + j) = .ok (chunks (i + j), true) ∧ ¬ (chunks (i + j)).length < P) →
      f (i + k) = .error e →
      runIterator f P ⟨i, false⟩ fuel =
        ((List.range k).map (fun j => chunks (i + j)), ⟨i + k, false⟩, some e) := by
  intro k
  induction k with
  | zero =>
    intro i fuel hfuel hok herr
    obtain ⟨fuel', rfl⟩ : ∃ m, fuel = m + 1 := ⟨fuel - 1, by omega⟩
    rw [Nat.add_zero] at herr
    unfold runIterator
    simp [herr]
  | succ k ih =>
    intro i fuel hfuel hok herr
    obtain ⟨fuel', rfl⟩ : ∃ m, fuel = m + 1 := ⟨fuel - 1, by omega⟩
    have h0 := hok 0 (by omega)
    rw [Nat.add_zero] at h0
    have hrec := ih (i + 1) fuel' (by omega)
      (fun j hj => by
        have hx := hok (j + 1) (by omega)
        rw [show i + (j + 1) = i + 1 + j from by omega] at hx
        exact hx)
      (by rw [show i + 1 + k = i + (k + 1) from by omega]; exact herr)
    have hns : decide ((chunks i).length < P) = false := by
      simp only [decide_eq_false_iff_not]
      exact h0.2
    have hmap : (List.range (k + 1)).map (fun j => chunks (i + j)) =
        chunks i :: (List.range k).map (fun j => chunks (i + 1 + j)) := by
      rw [List.range_succ_eq_map, List.map_cons, List.map_map]
      refine congrArg₂ _ (by rw [Nat.add_zero]) ?_
      apply List.map_congr_left
      intro j hj
      simp only [Function.comp]
      congr 1
      omega
    unfold runIterator
    simp [h0.1, hns, hrec, hmap]
    omega

/-- C8: a failing page fetch propagates to the consumer exactly at the
pull where that page was requested; the pages already yielded are exactly
the earlier fetches' items, unretracted and in order; the
PaginationState is left as it was before the failed pull (index not
advanced, not exhausted); and a failed token exchange leaves the
TokenStore unchanged. -/
theorem C8_page_fetch_failure (α : Type) (f : Nat → Except ApiError (List α × Bool))
    (P k fuel : Nat) (chunks : Nat → List α) (e : ApiError)
    (hok : ∀ j, j < k → f j = .ok (chunks j, true) ∧ ¬ (chunks j).length < P)
    (herr : f k = .error e) (hfuel : k < fuel) :
    (runIterator f P ⟨0, false⟩ fuel =
      ((List.range k).map chunks, ⟨k, false⟩, some e)) ∧
    (∀ margin now status code msg store,
      (getAccessToken margin now (.denied status code msg) store).2.1 = store) := by
  constructor
  · have h := runIterator_fail f P chunks e k 0 fuel hfuel
      (fun j hj => by simpa using hok j hj) (by simpa using herr)
    simpa using h
  · intro margin now status code msg store
    match store with
    | none => simp [getAccessToken, tokenExchange]
    | some t =>
      by_cases hv : tokenValid margin now t
      · simp [getAccessToken, hv]
      · simp [getAccessToken, hv, tokenExchange]

/-- Concrete failing drain: two full pages succeed, the third fetch
fails; both pages are kept, the failure surfaces, the state still points
at page 2 unexhausted, and a denied exchange leaves a cached token in
place. -/
theorem C8_page_fetch_failure_witness :
    (runIterator
        (fun idx => if idx < 2 then .ok ([2 * idx + 1, 2 * idx + 2], true)
          else .error (mkApiError 500 none "boom")) 2 ⟨0, false⟩ 5 =
      ([[1, 2], [3, 4]], ⟨2, false⟩, some (mkApiError 500 none "boom"))) ∧
    ((getAccessToken 30 100 (.denied 401 none "bad") (some ⟨"t", 120⟩)).2.1 =
      some ⟨"t", 120⟩) := by
  have h := C8_page_fetch_failure Nat
    (fun idx => if idx < 2 then .ok ([2 * idx + 1, 2 * idx + 2], true)
      else .error (mkApiError 500 none "boom")) 2 2 5
    (fun j => [2 * j + 1, 2 * j + 2]) (mkApiError 500 none "boom")
    (by intro j hj
        interval_cases j <;> exact ⟨rfl, by norm_num⟩)
    rfl (by omega)
  refine ⟨?_, h.2 30 100 401 none "bad" (some ⟨"t", 120⟩)⟩
  rw [h.1]
  rfl

/-! ## Contract file base64 content (modelled from the spec and tests) -/

/-- The base64 alphabet in index order. -/
def b64Alphabet : List Char :=
  "ABCDEFGHIJKLMNOPQRSTUVWXYZabcdefghijklmnopqrstuvwxyz0123456789+/".data

/-- Encode one sextet (a value below 64) as a base64 character. -/
def b64Char (n : Nat) : Char := b64Alphabet.getD n 'A'

/-- Decode one base64 character back to its sextet. -/
def b64Value (c : Char) : Nat := b64Alphabet.indexOf c

/-- RFC 4648 base64 encoding of a byte list (bytes as naturals below
256), with trailing `=` padding, as Python's `base64.b64encode`
produces. -/
def base64Encode : List Nat → List Char
  | [] => []
  | [b0] => [b64Char (b0 / 4), b64Char (b0 % 4 * 16), '=', '=']
  | [b0, b1] =>
    [b64Char (b0 / 4), b64Char (b0 % 4 * 16 + b1 / 16), b64Char (b1 % 16 * 4), '=']
  | b0 :: b1 :: b2 :: rest =>
    b64Char (b0 / 4) :: b64Char (b0 % 4 * 16 + b1 / 16) ::
      b64Char (b1 % 16 * 4 + b2 / 64) :: b64Char (b2 % 64) :: base64Encode rest

/-- Base64 decoding, four characters per quantum, honouring `=` padding
in the final quantum, as Python's `base64.b64decode` does. -/
def base64Decode : List Char → List Nat
  | c0 :: c1 :: c2 :: c3 :: rest =>
    if c2 = '=' then [b64Value c0 * 4 + b64Value c1 / 16]
    else if c3 = '=' then
      [b64Value c0 * 4 + b64Value c1 / 16, b64Value c1 % 16 * 16 + b64Value c2 / 4]
    else
      (b64Value c0 * 4 + b64Value c1 / 16) ::
        (b64Value c1 % 16 * 16 + b64Value c2 / 4) ::
        (b64Value c2 % 4 * 64 + b64Value c3) :: base64Decode rest
  | _ => []

/-- Decoding inverts encoding on every sextet value. -/
theorem b64Value_b64Char : ∀ n, n < 64 → b64Value (b64Char n) = n := by decide

/-- No sextet encodes to the padding character. -/
theorem b64Char_ne_pad : ∀ n, n < 64 → b64Char n ≠ '=' := by decide

/-- Dividing `r * m + s` by `m` recovers `r` when `s < m`. -/
theorem mulAddDivSelf (r s m : Nat) (hm : 0 < m) (hs : s < m) : (r * m + s) / m = r := by
  rw [Nat.mul_comm, Nat.mul_add_div hm, Nat.div_eq_of_lt hs, Nat.add_zero]

/-- Reducing `r * m + s` modulo `m` recovers `s` when `s < m`. -/
theorem mulAddModSelf (r s m : Nat) (hs : s < m) : (r * m + s) % m = s := by
  rw [Nat.mul_comm, Nat.mul_add_mod, Nat.mod_eq_of_lt hs]

/-- Base64 decoding inverts encoding on every byte list. -/
theorem base64Decode_encode :
    ∀ l : List Nat, (∀ b ∈ l, b < 256) → base64Decode (base64Encode l) = l
  | [], _ => rfl
  | [b0], hb => by
    have h0 := hb b0 (by simp)
    have e1 : b0 % 4 * 16 / 16 = b0 % 4 := Nat.mul_div_cancel _ (by norm_num)
    simp only [base64Encode, base64Decode]
    rw [if_pos trivial]
    rw [b64Value_b64Char _ (by omega), b64Value_b64Char _ (by omega)]
    simp only [List.cons.injEq, eq_self_iff_true, and_true]
    omega
  | [b0, b1], hb => by
    have h0 := hb b0 (by simp)
    have h1 := hb b1 (by simp)
    have e1 : (b0 % 4 * 16 + b1 / 16) / 16 = b0 % 4 :=
      mulAddDivSelf _ _ _ (by norm_num) (by omega)
    have e2 : (b0 % 4 * 16 + b1 / 16) % 16 = b1 / 16 := mulAddModSelf _ _ _ (by omega)
    have e3 : b1 % 16 * 4 / 4 = b1 % 16 := Nat.mul_div_cancel _ (by norm_num)
    simp only [base64Encode, base64Decode]
    rw [if_neg (b64Char_ne_pad _ (by omega)), if_pos trivial]
    rw [b64Value_b64Char _ (by omega), b64Value_b64Char _ (by omega),
      b64Value_b64Char _ (by omega)]
    simp only [List.cons.injEq, eq_self_iff_true, and_true]
    omega
  | b0 :: b1 :: b2 :: b3 :: rest, hb => by
    have h0 := hb b0 (by simp)
    have h1 := hb b1 (by simp)
    have h2 := hb b2 (by simp)
    have e1 : (b0 % 4 * 16 + b1 / 16) / 16 = b0 % 4 :=
      mulAddDivSelf _ _ _ (by norm_num) (by omega)
    have e2 : (b0 % 4 * 16 + b1 / 16) % 16 = b1 / 16 := mulAddModSelf _ _ _ (by omega)
    have e3 : (b1 % 16 * 4 + b2 / 64) / 4 = b1 % 16 :=
      mulAddDivSelf _ _ _ (by norm_num) (by omega)
    have e4 : (b1 % 16 * 4 + b2 / 64) % 4 = b2 / 64 := mulAddModSelf _ _ _ (by omega)
    simp only [base64Encode, base64Decode]
    rw [if_neg (b64Char_ne_pad _ (by omega)), if_neg (b64Char_ne_pad _ (by omega))]
    rw [b64Value_b64Char _ (by omega), b64Value_b64Char _ (by omega),
      b64Value_b64Char _ (by omega), b64Value_b64Char _ (by omega)]
    rw [base64Decode_encode (b3 :: rest) (fun b hbm => hb b (by simp at hbm ⊢; tauto))]
    simp only [List.cons.injEq, eq_self_iff_true, and_true]
    omega
  | [b0, b1, b2], hb => by
    have h0 := hb b0 (by simp)
    have h1 := hb b1 (by simp)
    have h2 := hb b2 (by simp)
    have e1 : (b0 % 4 * 16 + b1 / 16) / 16 = b0 % 4 :=
      mulAddDivSelf _ _ _ (by norm_num) (by omega)
    have e2 : (b0 % 4 * 16 + b1 / 16) % 16 = b1 / 16 := mulAddModSelf _ _ _ (by omega)
    have e3 : (b1 % 16 * 4 + b2 / 64) / 4 = b1 % 16 :=
      mulAddDivSelf _ _ _ (by norm_num) (by omega)
    have e4 : (b1 % 16 * 4 + b2 / 64) % 4 = b2 / 64 := mulAddModSelf _ _ _ (by omega)
    simp only [base64Encode, base64Decode]
    rw [if_neg (b64Char_ne_pad _ (by omega)), if_neg (b64Char_ne_pad _ (by omega))]
    rw [b64Value_b64Char _ (by omega), b64Value_b64Char _ (by omega),
      b64Value_b64Char _ (by omega), b64Value_b64Char _ (by omega)]
    simp only [List.cons.injEq, eq_self_iff_true, and_true]
    omega

/-- Modelled from the spec: voltarium/models/contracts.py is not in the
sources.  A downloaded contract file carrying its base64 content;
`content` and `content_length` are derived by decoding, as the model
test exercises. -/
structure ContractFile where
  contract_id : String
  filename : String
  content_type : String
  content_base64 : String

/-- The decoded bytes of the contract file. -/
def ContractFile.content (f : ContractFile) : List Nat :=
  base64Decode f.content_base64.data

/-- The length of the decoded content. -/
def ContractFile.content_length (f : ContractFile) : Nat :=
  f.content.length

/-- C10: a ContractFile built from the base64 encoding of any byte
sequence round-trips: `content` equals the original bytes,
`content_base64` is kept unchanged, and `content_length` equals the byte
count. -/
theorem C10_contract_file_base64 (bytes : List Nat) (hb : ∀ b ∈ bytes, b < 256)
    (cid fn ct : String) :
    (ContractFile.mk cid fn ct ⟨base64Encode bytes⟩).content = bytes ∧
    (ContractFile.mk cid fn ct ⟨base64Encode bytes⟩).content_base64 =
      ⟨base64Encode bytes⟩ ∧
    (ContractFile.mk cid fn ct ⟨base64Encode bytes⟩).content_length = bytes.length := by
  have hdec : base64Decode (base64Encode bytes) = bytes := base64Decode_encode bytes hb
  refine ⟨?_, rfl, ?_⟩
  · show base64Decode (String.mk (base64Encode bytes)).data = bytes
    exact hdec
  · show (base64Decode (String.mk (base64Encode bytes)).data).length = bytes.length
    show (base64Decode (base64Encode bytes)).length = bytes.length
    rw [hdec]

/-- Concrete round-trip on the PDF header bytes used by the contract
model test (`%PDF-1.5\nFAKE`). -/
theorem C10_contract_file_base64_witness :
    (ContractFile.mk "123" "123.pdf" "application/pdf"
        ⟨base64Encode [37, 80, 68, 70, 45, 49, 46, 53, 10, 70, 65, 75, 69]⟩).content =
      [37, 80, 68, 70, 45, 49, 46, 53, 10, 70, 65, 75, 69] ∧
    (ContractFile.mk "123" "123.pdf" "application/pdf"
        ⟨base64Encode [37, 80, 68, 70, 45, 49, 46, 53, 10, 70, 65, 75, 69]⟩).content_length =
      13 := by
  have h := C10_contract_file_base64 [37, 80, 68, 70, 45, 49, 46, 53, 10, 70, 65, 75, 69]
    (by decide) "123" "123.pdf" "application/pdf"
  exact ⟨h.1, h.2.2⟩

/-! ## Single-flight token refresh under cooperative concurrency
(modelled from the spec) -/

/-- Equality of `Except` values is decidable when it is on both sides. -/
instance instExceptDecEq {ε α : Type} [DecidableEq ε] [DecidableEq α] :
    DecidableEq (Except ε α) := fun x y =>
  match x, y with
  | .ok a, .ok b =>
    if h : a = b then isTrue (by rw [h]) else isFalse (fun hh => h (Except.ok.inj hh))
  | .error a, .error b =>
    if h : a = b then isTrue (by rw [h]) else isFalse (fun hh => h (Except.error.inj hh))
  | .ok _, .error _ => isFalse (fun hh => nomatch hh)
  | .error _, .ok _ => isFalse (fun hh => nomatch hh)

/-- The control point of one concurrent `ensure_token` caller. -/
inductive TaskPC where
  | start
  | waitLock
  | locked
  | done (result : Except ApiError String)
  deriving DecidableEq

/-- The environment of one refresh generation: the safety margin, the
current time (frozen across the race window), and the auth endpoint's
reply to the token exchange. -/
structure AuthEnv where
  margin : Nat
  now : Nat
  reply : AuthReply

/-- A configuration of `n` concurrent callers plus the shared state: the
token store, the single-flight lock, the completed refresh outcome of
this generation (shared with every waiter), and the count of exchange
calls issued so far. -/
structure Cfg where
  n : Nat
  tasks : Nat → TaskPC
  store : Option Token
  lockHeld : Bool
  flight : Option (Except ApiError Token)
  exchanges : Nat

/-- The access-token string a completed refresh hands to its waiters. -/
def flightResult : Except ApiError Token → Except ApiError String
  | .ok t => .ok t.access_token
  | .error e => .error e

/-- Modelled from the spec: one atomic step of caller `i` of
`ensure_token`.  At `start` the caller reads the store and returns a
valid cached token at once, else queues for the refresh lock.  At
`waitLock` it adopts the result of a refresh that already completed, or
acquires the free lock (a held lock blocks it).  At `locked` it performs
the one token exchange, publishes the outcome to the store (on success)
and to every waiter, and releases the lock.  The exchange await is kept
atomic here because no other caller's enabled transition can observe its
intermediate state.  Finished, blocked or out-of-range callers leave the
configuration unchanged. -/
def stepAt (env : AuthEnv) (c : Cfg) (i : Nat) : Cfg :=
  if i < c.n then
    match c.tasks i with
    | .start =>
      match c.store with
      | some t =>
        if tokenValid env.margin env.now t then
          { c with tasks := Function.update c.tasks i (.done (.ok t.access_token)) }
        else { c with tasks := Function.update c.tasks i .waitLock }
      | none => { c with tasks := Function.update c.tasks i .waitLock }
    | .waitLock =>
      match c.flight with
      | some o => { c with tasks := Function.update c.tasks i (.done (flightResult o)) }
      | none =>
        if c.lockHeld then c
        else { c with tasks := Function.update c.tasks i .locked, lockHeld := true }
    | .locked =>
      match tokenExchange env.now env.reply with
      | .ok t =>
        { c with tasks := Function.update c.tasks i (.done (.ok t.access_token)),
                 store := some t, flight := some (.ok t), lockHeld := false,
                 exchanges := c.exchanges + 1 }
      | .error e =>
        { c with tasks := Function.update c.tasks i (.done (.error e)),
                 flight := some (.error e), lockHeld := false,
                 exchanges := c.exchanges + 1 }
    | .done _ => c
  else c

/-- Run a schedule: each entry names the caller that takes its next
atomic step. -/
def runSched (env : AuthEnv) (c : Cfg) : List Nat → Cfg
  | [] => c
  | i :: sched => runSched env (stepAt env c i) sched

/-- The initial configuration: `n` callers about to call `ensure_token`,
the store as given, the lock free, no refresh completed. -/
def initCfg (n : Nat) (store0 : Option Token) : Cfg :=
  { n := n, tasks := fun _ => .start, store := store0, lockHeld := false,
    flight := none, exchanges := 0 }

/-- Whether a caller has finished. -/
def TaskPC.isDone : TaskPC → Bool
  | .done _ => true
  | _ => false

/-- Every caller has finished. -/
def allDone (c : Cfg) : Prop := ∀ i, i < c.n → (c.tasks i).isDone = true

instance (c : Cfg) : Decidable (allDone c) := by
  unfold allDone
  infer_instance

/-- The inductive invariant of the single-flight machine, relative to an
initial store holding no valid token. -/
structure SFInv (env : AuthEnv) (store0 : Option Token) (c : Cfg) : Prop where
  exch : c.exchanges = if c.flight.isSome then 1 else 0
  noLock : c.lockHeld = false → ∀ i, i < c.n → c.tasks i ≠ .locked
  uniqueLock : ∀ i j, i < c.n → j < c.n → c.tasks i = .locked → c.tasks j = .locked → i = j
  flightLock : c.flight.isSome → c.lockHeld = false ∧ ∀ i, i < c.n → c.tasks i ≠ .locked
  flightVal : ∀ o, c.flight = some o → o = tokenExchange env.now env.reply
  storeNone : c.flight = none → c.store = store0
  storeSome : ∀ o, c.flight = some o →
    c.store = (match o with | .ok t => some t | .error _ => store0)
  doneFlight : ∀ i, i < c.n → ∀ r, c.tasks i = .done r →
    c.flight.isSome = true ∧ r = flightResult (tokenExchange env.now env.reply)

/-- Updating one caller to a control point that is neither `locked` nor
`done`, with all shared state unchanged, preserves the invariant. -/
theorem SFInv_update_quiet (env : AuthEnv) (store0 : Option Token) (c : Cfg)
    (h : SFInv env store0 c) (i : Nat) (v : TaskPC)
    (hvl : v ≠ .locked) (hvd : ∀ r', v ≠ .done r') :
    SFInv env store0 { c with tasks := Function.update c.tasks i v } := by
  refine ⟨h.exch, ?_, ?_, ?_, h.flightVal, h.storeNone, h.storeSome, ?_⟩
  · intro hlk j hj
    simp only [Function.update_apply]
    split
    · exact hvl
    · exact h.noLock hlk j hj
  · intro j k hj hk
    simp only [Function.update_apply]
    split
    · intro hc; exact absurd hc hvl
    · split
      · intro _ hc; exact absurd hc hvl
      · exact h.uniqueLock j k hj hk
  · intro hf
    refine ⟨(h.flightLock hf).1, ?_⟩
    intro j hj
    simp only [Function.update_apply]
    split
    · exact hvl
    · exact (h.flightLock hf).2 j hj
  · intro j hj r'
    simp only [Function.update_apply]
    split
    · intro hc; exact absurd hc (hvd r')
    · exact h.doneFlight j hj r'

/-- Updating one caller to `done r` when `r` is the published refresh
result, with all shared state unchanged, preserves the invariant. -/
theorem SFInv_update_done (env : AuthEnv) (store0 : Option Token) (c : Cfg)
    (h : SFInv env store0 c) (i : Nat) (r : Except ApiError String)
    (hfl : c.flight.isSome = true)
    (hr : r = flightResult (tokenExchange env.now env.reply)) :
    SFInv env store0 { c with tasks := Function.update c.tasks i (.done r) } := by
  refine ⟨h.exch, ?_, ?_, ?_, h.flightVal, h.storeNone, h.storeSome, ?_⟩
  · intro hlk j hj
    simp only [Function.update_apply]
    split
    · simp
    · exact h.noLock hlk j hj
  · intro j k hj hk
    simp only [Function.update_apply]
    split
    · intro hc; exact absurd hc (by simp)
    · split
      · intro _ hc; exact absurd hc (by simp)
      · exact h.uniqueLock j k hj hk
  · intro hf
    refine ⟨(h.flightLock hf).1, ?_⟩
    intro j hj
    simp only [Function.update_apply]
    split
    · simp
    · exact (h.flightLock hf).2 j hj
  · intro j hj r'
    simp only [Function.update_apply]
    split
    · intro hc
      injection hc with hc
      subst hc
      exact ⟨hfl, hr⟩
    · exact h.doneFlight j hj r'

/-- `stepAt` on a finished or out-of-range caller does nothing. -/
theorem stepAt_done (env : AuthEnv) (c : Cfg) (i : Nat) (r : Except ApiError String)
    (hpc : c.tasks i = .done r) : stepAt env c i = c := by
  unfold stepAt
  split
  · rw [hpc]
  · rfl

/-- `stepAt` at `start` with an empty store queues the caller. -/
theorem stepAt_start_empty (env : AuthEnv) (c : Cfg) (i : Nat) (hin : i < c.n)
    (hpc : c.tasks i = .start) (hst : c.store = none) :
    stepAt env c i = { c with tasks := Function.update c.tasks i .waitLock } := by
  unfold stepAt
  rw [if_pos hin, hpc, hst]

/-- `stepAt` at `start` with a stale cached token queues the caller. -/
theorem stepAt_start_stale (env : AuthEnv) (c : Cfg) (i : Nat) (t : Token) (hin : i < c.n)
    (hpc : c.tasks i = .start) (hst : c.store = some t)
    (hv : tokenValid env.margin env.now t = false) :
    stepAt env c i = { c with tasks := Function.update c.tasks i .waitLock } := by
  unfold stepAt
  rw [if_pos hin, hpc, hst]
  simp [hv]

/-- `stepAt` at `start` with a valid cached token finishes the caller at
once with that token. -/
theorem stepAt_start_cached (env : AuthEnv) (c : Cfg) (i : Nat) (t : Token) (hin : i < c.n)
    (hpc : c.tasks i = .start) (hst : c.store = some t)
    (hv : tokenValid env.margin env.now t = true) :
    stepAt env c i =
      { c with tasks := Function.update c.tasks i (.done (.ok t.access_token)) } := by
  unfold stepAt
  rw [if_pos hin, hpc, hst]
  simp [hv]

/-- `stepAt` at `waitLock` after the refresh completed adopts its
result. -/
theorem stepAt_adopt (env : AuthEnv) (c : Cfg) (i : Nat) (o : Except ApiError Token)
    (hin : i < c.n) (hpc : c.tasks i = .waitLock) (hfl : c.flight = some o) :
    stepAt env c i =
      { c with tasks := Function.update c.tasks i (.done (flightResult o)) } := by
  unfold stepAt
  rw [if_pos hin, hpc, hfl]

/-- `stepAt` at `waitLock` blocks while the lock is held. -/
theorem stepAt_blocked (env : AuthEnv) (c : Cfg) (i : Nat) (hin : i < c.n)
    (hpc : c.tasks i = .waitLock) (hfl : c.flight = none) (hl : c.lockHeld = true) :
    stepAt env c i = c := by
  unfold stepAt
  rw [if_pos hin, hpc, hfl]
  simp [hl]

/-- `stepAt` at `waitLock` acquires the free lock. -/
theorem stepAt_acquire (env : AuthEnv) (c : Cfg) (i : Nat) (hin : i < c.n)
    (hpc : c.tasks i = .waitLock) (hfl : c.flight = none) (hl : c.lockHeld = false) :
    stepAt env c i =
      { c with tasks := Function.update c.tasks i .locked, lockHeld := true } := by
  unfold stepAt
  rw [if_pos hin, hpc, hfl]
  simp [hl]

/-- `stepAt` at `locked` with a granted exchange publishes the fresh
token everywhere and releases the lock. -/
theorem stepAt_exchange_ok (env : AuthEnv) (c : Cfg) (i : Nat) (t : Token) (hin : i < c.n)
    (hpc : c.tasks i = .locked) (hex : tokenExchange env.now env.reply = .ok t) :
    stepAt env c i =
      { c with tasks := Function.update c.tasks i (.done (.ok t.access_token)),
               store := some t, flight := some (.ok t), lockHeld := false,
               exchanges := c.exchanges + 1 } := by
  unfold stepAt
  rw [if_pos hin, hpc, hex]

/-- `stepAt` at `locked` with a denied exchange publishes the failure to
every waiter, leaves the store unchanged, and releases the lock. -/
theorem stepAt_exchange_err (env : AuthEnv) (c : Cfg) (i : Nat) (e : ApiError) (hin : i < c.n)
    (hpc : c.tasks i = .locked) (hex : tokenExchange env.now env.reply = .error e) :
    stepAt env c i =
      { c with tasks := Function.update c.tasks i (.done (.error e)),
               flight := some (.error e), lockHeld := false,
               exchanges := c.exchanges + 1 } := by
  unfold stepAt
  rw [if_pos hin, hpc, hex]

/-- `stepAt` on an out-of-range caller index does nothing. -/
theorem stepAt_out (env : AuthEnv) (c : Cfg) (i : Nat) (hin : ¬ i < c.n) :
    stepAt env c i = c := by
  unfold stepAt
  rw [if_neg hin]

/-- One step of any caller preserves the single-flight invariant, given
that the initial store held no valid token. -/
theorem stepAt_SFInv (env : AuthEnv) (store0 : Option Token)
    (hstore : ∀ t, store0 = some t → tokenValid env.margin env.now t = false)
    (c : Cfg) (i : Nat) (h : SFInv env store0 c) : SFInv env store0 (stepAt env c i) := by
  by_cases hin : i < c.n
  case neg => rw [stepAt_out env c i hin]; exact h
  cases hpc : c.tasks i with
  | done r => rw [stepAt_done env c i r hpc]; exact h
  | start =>
    cases hst : c.store with
    | none =>
      rw [stepAt_start_empty env c i hin hpc hst]
      exact SFInv_update_quiet env store0 c h i .waitLock (by simp) (by simp)
    | some t =>
      cases hv : tokenValid env.margin env.now t with
      | false =>
        rw [stepAt_start_stale env c i t hin hpc hst hv]
        exact SFInv_update_quiet env store0 c h i .waitLock (by simp) (by simp)
      | true =>
        rw [stepAt_start_cached env c i t hin hpc hst hv]
        have hflight : ∃ t', c.flight = some (.ok t') ∧ t' = t := by
          cases hfl : c.flight with
          | none =>
            have hx := h.storeNone hfl
            rw [hst] at hx
            rw [hstore t hx.symm] at hv
            exact absurd hv (by simp)
          | some o =>
            cases o with
            | error e =>
              have hx := h.storeSome _ hfl
              rw [hst] at hx
              rw [hstore t hx.symm] at hv
              exact absurd hv (by simp)
            | ok t' =>
              have hx := h.storeSome _ hfl
              rw [hst] at hx
              exact ⟨t', rfl, by injection hx with hh; exact hh.symm⟩
        obtain ⟨t', hfl, rfl⟩ := hflight
        have hexch : tokenExchange env.now env.reply = .ok t' :=
          (h.flightVal _ hfl).symm
        exact SFInv_update_done env store0 c h i _ (by rw [hfl]; rfl) (by rw [hexch]; rfl)
  | waitLock =>
    cases hfl : c.flight with
    | some o =>
      rw [stepAt_adopt env c i o hin hpc hfl]
      exact SFInv_update_done env store0 c h i _ (by rw [hfl]; rfl)
        (by rw [h.flightVal _ hfl])
    | none =>
      cases hl : c.lockHeld with
      | true =>
        rw [stepAt_blocked env c i hin hpc hfl hl]
        exact h
      | false =>
        rw [stepAt_acquire env c i hin hpc hfl hl]
        have hnolock := h.noLock hl
        refine ⟨h.exch, ?_, ?_, ?_, h.flightVal, h.storeNone, h.storeSome, ?_⟩
        · intro hlk
          exact absurd hlk (by simp)
        · intro j k hj hk
          simp only [Function.update_apply]
          split
          · rename_i hji
            split
            · rename_i hki
              intro _ _
              rw [hji, hki]
            · intro _ hc
              exact absurd hc (hnolock k hk)
          · intro hc
            exact absurd hc (hnolock j hj)
        · intro hf
          simp only [hfl] at hf
          exact absurd hf (by simp)
        · intro j hj r'
          simp only [Function.update_apply]
          split
          · intro hc; exact absurd hc (by simp)
          · intro hdj
            have hx := (h.doneFlight j hj r' hdj).1
            rw [hfl] at hx
            exact absurd hx (by simp)
  | locked =>
    have hfl : c.flight = none := by
      cases hfl : c.flight with
      | none => rfl
      | some o =>
        exact absurd hpc ((h.flightLock (by rw [hfl]; rfl)).2 i hin)
    have hnootherlock : ∀ j, j < c.n → j ≠ i → c.tasks j ≠ .locked := by
      intro j hj hji hc
      exact hji (h.uniqueLock j i hj hin hc hpc)
    have hnodone : ∀ j, j < c.n → ∀ r', c.tasks j ≠ .done r' := by
      intro j hj r' hc
      have hx := (h.doneFlight j hj r' hc).1
      rw [hfl] at hx
      exact absurd hx (by simp)
    have hexch0 : c.exchanges = 0 := by
      rw [h.exch, hfl]
      rfl
    cases hex : tokenExchange env.now env.reply with
    | ok t =>
      rw [stepAt_exchange_ok env c i t hin hpc hex]
      refine ⟨?_, ?_, ?_, ?_, ?_, ?_, ?_, ?_⟩
      · simp [hexch0]
      · intro _ j hj
        simp only [Function.update_apply]
        split
        · simp
        · rename_i hji
          exact hnootherlock j hj hji
      · intro j k hj hk
        simp only [Function.update_apply]
        split
        · intro hc; exact absurd hc (by simp)
        · split
          · intro _ hc; exact absurd hc (by simp)
          · rename_i hji hki
            intro hc; exact absurd hc (hnootherlock j hj hji)
      · intro _
        refine ⟨rfl, ?_⟩
        intro j hj
        simp only [Function.update_apply]
        split
        · simp
        · rename_i hji
          exact hnootherlock j hj hji
      · intro o ho
        injection ho with ho
        rw [← ho]
        exact hex.symm
      · intro hc; exact absurd hc (by simp)
      · intro o ho
        injection ho with ho
        rw [← ho]
      · intro j hj r'
        simp only [Function.update_apply]
        split
        · intro hc
          injection hc with hc
          refine ⟨rfl, ?_⟩
          rw [hex, ← hc]
          rfl
        · intro hc
          exact absurd hc (hnodone j hj r')
    | error e =>
      rw [stepAt_exchange_err env c i e hin hpc hex]
      refine ⟨?_, ?_, ?_, ?_, ?_, ?_, ?_, ?_⟩
      · simp [hexch0]
      · intro _ j hj
        simp only [Function.update_apply]
        split
        · simp
        · rename_i hji
          exact hnootherlock j hj hji
      · intro j k hj hk
        simp only [Function.update_apply]
        split
        · intro hc; exact absurd hc (by simp)
        · split
          · intro _ hc; exact absurd hc (by simp)
          · rename_i hji hki
            intro hc; exact absurd hc (hnootherlock j hj hji)
      · intro _
        refine ⟨rfl, ?_⟩
        intro j hj
        simp only [Function.update_apply]
        split
        · simp
        · rename_i hji
          exact hnootherlock j hj hji
      · intro o ho
        injection ho with ho
        rw [← ho]
        exact hex.symm
      · intro hc; exact absurd hc (by simp)
      · intro o ho
        injection ho with ho
        rw [← ho]
        exact h.storeNone hfl
      · intro j hj r'
        simp only [Function.update_apply]
        split
        · intro hc
          injection hc with hc
          refine ⟨rfl, ?_⟩
          rw [hex, ← hc]
          rfl
        · intro hc
          exact absurd hc (hnodone j hj r')

/-- A step never changes the number of callers. -/
theorem stepAt_n (env : AuthEnv) (c : Cfg) (i : Nat) : (stepAt env c i).n = c.n := by
  by_cases hin : i < c.n
  · cases hpc : c.tasks i with
    | done r => rw [stepAt_done env c i r hpc]
    | start =>
      cases hst : c.store with
      | none => rw [stepAt_start_empty env c i hin hpc hst]
      | some t =>
        cases hv : tokenValid env.margin env.now t with
        | false => rw [stepAt_start_stale env c i t hin hpc hst hv]
        | true => rw [stepAt_start_cached env c i t hin hpc hst hv]
    | waitLock =>
      cases hfl : c.flight with
      | some o => rw [stepAt_adopt env c i o hin hpc hfl]
      | none =>
        cases hl : c.lockHeld with
        | true => rw [stepAt_blocked env c i hin hpc hfl hl]
        | false => rw [stepAt_acquire env c i hin hpc hfl hl]
    | locked =>
      cases hex : tokenExchange env.now env.reply with
      | ok t => rw [stepAt_exchange_ok env c i t hin hpc hex]
      | error e => rw [stepAt_exchange_err env c i e hin hpc hex]
  · rw [stepAt_out env c i hin]

/-- A whole schedule never changes the number of callers. -/
theorem runSched_n (env : AuthEnv) : ∀ sched (c : Cfg), (runSched env c sched).n = c.n
  | [], _ => rfl
  | i :: sched, c => by
    rw [runSched, runSched_n env sched (stepAt env c i), stepAt_n]

/-- A whole schedule preserves the single-flight invariant. -/
theorem runSched_SFInv (env : AuthEnv) (store0 : Option Token)
    (hstore : ∀ t, store0 = some t → tokenValid env.margin env.now t = false) :
    ∀ sched (c : Cfg), SFInv env store0 c → SFInv env store0 (runSched env c sched)
  | [], _, h => h
  | i :: sched, c, h =>
    runSched_SFInv env store0 hstore sched (stepAt env c i)
      (stepAt_SFInv env store0 hstore c i h)

/-- The initial configuration satisfies the invariant. -/
theorem initCfg_SFInv (env : AuthEnv) (store0 : Option Token) (n : Nat) :
    SFInv env store0 (initCfg n store0) := by
  refine ⟨rfl, ?_, ?_, ?_, ?_, fun _ => rfl, ?_, ?_⟩
  · intro _ i _
    simp [initCfg]
  · intro j k _ _ hj
    exact absurd hj (by simp [initCfg])
  · intro hf
    exact absurd hf (by simp [initCfg])
  · intro o ho
    exact absurd ho (by simp [initCfg])
  · intro o ho
    exact absurd ho (by simp [initCfg])
  · intro j _ r hj
    exact absurd hj (by simp [initCfg])

/-- A finished control point carries a result. -/
theorem isDone_exists (pc : TaskPC) (h : pc.isDone = true) : ∃ r, pc = .done r := by
  cases pc with
  | done r => exact ⟨r, rfl⟩
  | start => exact absurd h (by simp [TaskPC.isDone])
  | waitLock => exact absurd h (by simp [TaskPC.isDone])
  | locked => exact absurd h (by simp [TaskPC.isDone])

/-- When every one of `n ≥ 1` callers has finished from an initial store
holding no valid token: exactly one exchange was made, every caller holds
the result of that exchange, and the store is the fresh token on success
and unchanged on failure. -/
theorem runSched_results (env : AuthEnv) (store0 : Option Token)
    (hstore : ∀ t, store0 = some t → tokenValid env.margin env.now t = false)
    (n : Nat) (hn : 0 < n) (sched : List Nat)
    (hdone : allDone (runSched env (initCfg n store0) sched)) :
    (runSched env (initCfg n store0) sched).exchanges = 1 ∧
    (∀ i, i < n → (runSched env (initCfg n store0) sched).tasks i =
      .done (flightResult (tokenExchange env.now env.reply))) ∧
    (runSched env (initCfg n store0) sched).store =
      (match tokenExchange env.now env.reply with
        | .ok t => some t
        | .error _ => store0) := by
  set final := runSched env (initCfg n store0) sched with hfinal
  have hinv : SFInv env store0 final :=
    runSched_SFInv env store0 hstore sched (initCfg n store0) (initCfg_SFInv env store0 n)
  have hN : final.n = n := by
    rw [hfinal, runSched_n]
    rfl
  have htask : ∀ i, i < n → final.tasks i =
      .done (flightResult (tokenExchange env.now env.reply)) := by
    intro i hi
    have hd := hdone i (by rw [hN]; exact hi)
    obtain ⟨r, hr⟩ := isDone_exists _ hd
    have hdf := hinv.doneFlight i (by rw [hN]; exact hi) r hr
    rw [hr, hdf.2]
  have hfs : final.flight.isSome = true := by
    have := hinv.doneFlight 0 (by rw [hN]; exact hn) _ (htask 0 hn)
    exact this.1
  obtain ⟨o, ho⟩ : ∃ o, final.flight = some o := by
    cases hx : final.flight with
    | none => rw [hx] at hfs; exact absurd hfs (by simp)
    | some o => exact ⟨o, rfl⟩
  refine ⟨?_, htask, ?_⟩
  · rw [hinv.exch, ho]
    rfl
  · have hval := hinv.flightVal o ho
    have hst := hinv.storeSome o ho
    rw [hst, hval]

/-- C1: token refresh is single-flighted — for every schedule of `n ≥ 1`
concurrent `ensure_token` callers that all complete while no valid token
was cached, exactly one token exchange is made, and every caller
receives the same access-token string: the one produced by that single
exchange. -/
theorem C1_single_flight_token_exchange (margin now ei : Nat) (s : String)
    (store0 : Option Token)
    (hstore : ∀ t, store0 = some t → tokenValid margin now t = false)
    (n : Nat) (hn : 0 < n) (sched : List Nat)
    (hdone : allDone (runSched ⟨margin, now, .granted s ei⟩ (initCfg n store0) sched)) :
    (runSched ⟨margin, now, .granted s ei⟩ (initCfg n store0) sched).exchanges = 1 ∧
    (∀ i, i < n →
      (runSched ⟨margin, now, .granted s ei⟩ (initCfg n store0) sched).tasks i =
        .done (.ok s)) := by
  have h := runSched_results ⟨margin, now, .granted s ei⟩ store0 hstore n hn sched hdone
  refine ⟨h.1, ?_⟩
  intro i hi
  rw [h.2.1 i hi]
  rfl

/-- Three concurrent callers racing from an empty store under a
contended interleaving: one exchange, and all three end with the same
token string. -/
theorem C1_single_flight_token_exchange_witness :
    (runSched ⟨30, 100, .granted "tok" 3600⟩ (initCfg 3 none)
      [0, 1, 2, 0, 1, 2, 0, 1, 2]).exchanges = 1 ∧
    ((runSched ⟨30, 100, .granted "tok" 3600⟩ (initCfg 3 none)
      [0, 1, 2, 0, 1, 2, 0, 1, 2]).tasks 0 = .done (.ok "tok")) ∧
    ((runSched ⟨30, 100, .granted "tok" 3600⟩ (initCfg 3 none)
      [0, 1, 2, 0, 1, 2, 0, 1, 2]).tasks 1 = .done (.ok "tok")) ∧
    ((runSched ⟨30, 100, .granted "tok" 3600⟩ (initCfg 3 none)
      [0, 1, 2, 0, 1, 2, 0, 1, 2]).tasks 2 = .done (.ok "tok")) := by
  have h := C1_single_flight_token_exchange 30 100 3600 "tok" none
    (fun t ht => nomatch ht) 3 (by omega) [0, 1, 2, 0, 1, 2, 0, 1, 2] (by decide)
  exact ⟨h.1, h.2 0 (by omega), h.2 1 (by omega), h.2 2 (by omega)⟩

/-- C6: a token exchange denied with an authentication-rejection status
maps to an Authentication-kind failure, which is propagated to the
winning caller and every concurrent waiter; no token is cached (the
store is exactly as before), and exactly one exchange attempt occurs. -/
theorem C6_auth_failure_propagation (margin now status : Nat) (code : Option String)
    (msg : String) (store0 : Option Token)
    (hstore : ∀ t, store0 = some t → tokenValid margin now t = false)
    (hauth : status = 401 ∨ status = 403)
    (n : Nat) (hn : 0 < n) (sched : List Nat)
    (hdone : allDone
      (runSched ⟨margin, now, .denied status code msg⟩ (initCfg n store0) sched)) :
    (mkApiError status code msg).kind = .authentication ∧
    (runSched ⟨margin, now, .denied status code msg⟩ (initCfg n store0) sched).exchanges
      = 1 ∧
    (runSched ⟨margin, now, .denied status code msg⟩ (initCfg n store0) sched).store
      = store0 ∧
    (∀ i, i < n →
      (runSched ⟨margin, now, .denied status code msg⟩ (initCfg n store0) sched).tasks i =
        .done (.error (mkApiError status code msg))) := by
  have h := runSched_results ⟨margin, now, .denied status code msg⟩ store0 hstore n hn
    sched hdone
  refine ⟨?_, h.1, ?_, ?_⟩
  · rcases hauth with rfl | rfl <;> simp [mkApiError, classifyStatus]
  · rw [h.2.2]
    rfl
  · intro i hi
    rw [h.2.1 i hi]
    rfl

/-- Three concurrent callers racing into a denied exchange (HTTP 401):
one exchange attempt, an Authentication failure delivered to all three,
and no token cached. -/
theorem C6_auth_failure_propagation_witness :
    (mkApiError 401 none "bad credentials").kind = .authentication ∧
    (runSched ⟨30, 100, .denied 401 none "bad credentials"⟩ (initCfg 3 none)
      [0, 1, 2, 0, 1, 2, 0, 1, 2]).exchanges = 1 ∧
    (runSched ⟨30, 100, .denied 401 none "bad credentials"⟩ (initCfg 3 none)
      [0, 1, 2, 0, 1, 2, 0, 1, 2]).store = none ∧
    ((runSched ⟨30, 100, .denied 401 none "bad credentials"⟩ (initCfg 3 none)
      [0, 1, 2, 0, 1, 2, 0, 1, 2]).tasks 0 =
        .done (.error (mkApiError 401 none "bad credentials"))) ∧
    ((runSched ⟨30, 100, .denied 401 none "bad credentials"⟩ (initCfg 3 none)
      [0, 1, 2, 0, 1, 2, 0, 1, 2]).tasks 2 =
        .done (.error (mkApiError 401 none "bad credentials"))) := by
  have h := C6_auth_failure_propagation 30 100 401 none "bad credentials" none
    (fun t ht => nomatch ht) (Or.inl rfl) 3 (by omega) [0, 1, 2, 0, 1, 2, 0, 1, 2]
    (by decide)
  exact ⟨h.1, h.2.1, h.2.2.1, h.2.2.2 0 (by omega), h.2.2.2 2 (by omega)⟩
